import Mathlib

/-!
# Verification of the STADVDB-MCO1 OLAP front-end (`src/main.py`)

Shallow embedding of the result-shaping / chart-projection core of the
application: the pandas `groupby(...).agg(set-collection)` formatter of the
date-range query, the chart projections of the price/developer and
price-range-reviews queries, the procedure registry and the
connection-handling discipline of `call_procedure`, and the early-return
guard of the genre/language branch.
-/

namespace MCO1

/-- A scalar or set value held in one cell of a result table.
`null` models SQL NULL / pandas NaN/None; `vset` models the Python `set`
objects the formatter stores in the collapsed non-key columns
(`lambda x: set(x.dropna().tolist())`). -/
inductive Cell where
  | null : Cell
  | str : String → Cell
  | int : Int → Cell
  | vset : List Cell → Cell

mutual

/-- Boolean equality on cells (structural). -/
def Cell.beq : Cell → Cell → Bool
  | .null, .null => true
  | .str a, .str b => a == b
  | .int a, .int b => a == b
  | .vset a, .vset b => Cell.beqList a b
  | _, _ => false

/-- Boolean equality on lists of cells. -/
def Cell.beqList : List Cell → List Cell → Bool
  | [], [] => true
  | a :: as, b :: bs => Cell.beq a b && Cell.beqList as bs
  | _, _ => false

end

mutual

theorem Cell.beq_iff : ∀ (a b : Cell), Cell.beq a b = true ↔ a = b
  | .null, .null => by simp [Cell.beq]
  | .null, .str _ => by simp [Cell.beq]
  | .null, .int _ => by simp [Cell.beq]
  | .null, .vset _ => by simp [Cell.beq]
  | .str _, .null => by simp [Cell.beq]
  | .str a, .str b => by simp [Cell.beq]
  | .str _, .int _ => by simp [Cell.beq]
  | .str _, .vset _ => by simp [Cell.beq]
  | .int _, .null => by simp [Cell.beq]
  | .int _, .str _ => by simp [Cell.beq]
  | .int a, .int b => by simp [Cell.beq]
  | .int _, .vset _ => by simp [Cell.beq]
  | .vset _, .null => by simp [Cell.beq]
  | .vset _, .str _ => by simp [Cell.beq]
  | .vset _, .int _ => by simp [Cell.beq]
  | .vset a, .vset b => by
      have h := Cell.beqList_iff a b
      simp [Cell.beq, h]

theorem Cell.beqList_iff : ∀ (as bs : List Cell), Cell.beqList as bs = true ↔ as = bs
  | [], [] => by simp [Cell.beqList]
  | [], _ :: _ => by simp [Cell.beqList]
  | _ :: _, [] => by simp [Cell.beqList]
  | a :: as, b :: bs => by
      have h1 := Cell.beq_iff a b
      have h2 := Cell.beqList_iff as bs
      simp [Cell.beqList, h1, h2]

end

instance : DecidableEq Cell :=
  fun a b => decidable_of_iff (Cell.beq a b = true) (Cell.beq_iff a b)

instance {ε α : Type} [DecidableEq ε] [DecidableEq α] : DecidableEq (Except ε α) :=
  fun a b =>
    match a, b with
    | .ok x, .ok y => decidable_of_iff (x = y) (by simp)
    | .error e, .error f => decidable_of_iff (e = f) (by simp)
    | .ok _, .error _ => isFalse (by simp)
    | .error _, .ok _ => isFalse (by simp)

/-- Whether Python can hash a cell value: scalars (and None) hash, `set`
objects do not. -/
def Cell.hashable : Cell → Bool
  | Cell.vset _ => false
  | _ => true

/-- Whether an `Except` computation succeeded. -/
def exceptOk {ε α : Type} : Except ε α → Bool
  | Except.ok _ => true
  | Except.error _ => false

/-- A result-table row: an ordered mapping from column name to cell value,
mirroring the pandas row with its column schema. -/
abbrev Row : Type := List (String × Cell)

/-- Read the cell of a column in a row (first matching column name).
Columns outside the row's schema are never queried by the program;
for totality they read as `null`. -/
def Row.get : Row → String → Cell
  | [], _ => Cell.null
  | (c', v) :: rest, c => if c' = c then v else Row.get rest c

/-- Deduplicate a list keeping the first occurrence of each element,
as an ordered model of building a Python `set` / a pandas first-seen
group-key sequence. -/
def dedupFirst {α : Type} [DecidableEq α] : List α → List α
  | [] => []
  | a :: as => a :: (dedupFirst as).filter (fun b => b ≠ a)

theorem mem_dedupFirst {α : Type} [DecidableEq α] {b : α} :
    ∀ {l : List α}, b ∈ dedupFirst l ↔ b ∈ l := by
  intro l
  induction l with
  | nil => simp [dedupFirst]
  | cons a as ih =>
      by_cases hba : b = a
      · subst hba
        simp [dedupFirst]
      · simp [dedupFirst, List.mem_filter, ih, hba]

theorem nodup_dedupFirst {α : Type} [DecidableEq α] :
    ∀ (l : List α), (dedupFirst l).Nodup := by
  intro l
  induction l with
  | nil => simp [dedupFirst]
  | cons a as ih =>
      refine List.nodup_cons.mpr ⟨?_, ih.filter _⟩
      intro hmem
      have := List.mem_filter.mp hmem
      simp at this

theorem dedupFirst_eq_self {α : Type} [DecidableEq α] :
    ∀ {l : List α}, l.Nodup → dedupFirst l = l := by
  intro l
  induction l with
  | nil => intro _; rfl
  | cons a as ih =>
      intro hnd
      rcases List.nodup_cons.mp hnd with ⟨hna, hnd'⟩
      have hd : dedupFirst as = as := ih hnd'
      have hf : as.filter (fun b => b ≠ a) = as := by
        apply List.filter_eq_self.mpr
        intro b hb
        simp only [ne_eq, decide_eq_true_eq]
        intro hba
        exact hna (hba ▸ hb)
      show a :: (dedupFirst as).filter (fun b => b ≠ a) = a :: as
      rw [hd, hf]

/-! ## The Result Shaper of the date-range query

Embedding of the four `formatter` closures of `src/main.py` lines 76-127:
`df.groupby(keys, sort=False, as_index=False).agg({c: lambda x:
set(x.dropna().tolist()) for c in [developer, genre, website, platform]})
.reset_index(drop=True)`.  pandas `groupby` semantics: rows whose key
contains NaN/None are dropped (default `dropna=True`); with `sort=False`
groups appear in first-occurrence order of their key; each group holds all
its rows in original order; the aggregated frame has the key columns (in
the given order) followed by the aggregated columns (in dict order). -/

/-- The tuple of key-column values of a row. -/
def keyOf (ks : List String) (r : Row) : List Cell :=
  ks.map (Row.get r)

/-- Whether a row's group key contains a null (such a row is dropped by
pandas `groupby`'s default `dropna=True`). -/
def hasNullKey (ks : List String) (r : Row) : Bool :=
  decide (Cell.null ∈ keyOf ks r)

/-- All rows of a group: the input rows carrying the given key, in input
order. -/
def groupRows (ks : List String) (rows : List Row) (k : List Cell) : List Row :=
  rows.filter (fun r => keyOf ks r = k)

/-- The group keys in first-occurrence order (`sort=False`), after dropping
rows with a null in a key column (`dropna=True`). -/
def groupKeys (ks : List String) (rows : List Row) : List (List Cell) :=
  dedupFirst ((rows.filter (fun r => !(hasNullKey ks r))).map (keyOf ks))

/-- The non-key columns collapsed by the formatter, in the order of the
`agg` dict of the source. -/
def aggCols : List String := ["developer", "genre", "website", "platform"]

/-- The distinct non-null values of column `c` across the group's rows, as
a set cell: the value `set(x.dropna().tolist())` yields when it does not
raise. -/
def collectSetVal (c : String) (rs : List Row) : Cell :=
  Cell.vset (dedupFirst ((rs.map (fun r => Row.get r c)).filter (fun v => v ≠ Cell.null)))

/-- `lambda x: set(x.dropna().tolist())`: Python `set()` raises
`TypeError` when any collected (non-null) element is itself a set, since
sets are unhashable; otherwise it yields the distinct-value set. -/
def collectSet (c : String) (rs : List Row) : Except String Cell :=
  if ((rs.map (fun r => Row.get r c)).filter (fun v => v ≠ Cell.null)).all Cell.hashable
  then Except.ok (collectSetVal c rs)
  else Except.error "TypeError"

/-- One collapsed output row: the key columns followed by the collapsed
non-key columns (well-formed when no `collectSet` of the group raises). -/
def mkOut (ks : List String) (rows : List Row) (k : List Cell) : Row :=
  ks.zip k ++ aggCols.map (fun c => (c, collectSetVal c (groupRows ks rows k)))

/-- The date-range formatter: group by the key columns `ks` and collapse
the non-key columns to distinct-value sets; the aggregation raises
`TypeError` when `set()` does for some group and collapsed column. -/
def formatter (ks : List String) (rows : List Row) : Except String (List Row) :=
  if (groupKeys ks rows).all
      (fun k => aggCols.all (fun c => exceptOk (collectSet c (groupRows ks rows k))))
  then Except.ok ((groupKeys ks rows).map (mkOut ks rows))
  else Except.error "TypeError"

/-- The column schema of the formatter's output table (group keys first,
then the aggregated columns, as pandas emits them). -/
def formatterSchema (ks : List String) : List String :=
  ks ++ aggCols

/-- The interval granularity selected in the sidebar (`date_interval`). -/
inductive Interval where
  | yearly
  | quarterly
  | monthly
  | daily
deriving DecidableEq

/-- The group-key columns of each granularity's `formatter` closure. -/
def Interval.keys : Interval → List String
  | .yearly => ["Year", "count", "name", "price"]
  | .quarterly => ["Year", "Quarter", "count", "name", "price"]
  | .monthly => ["Year", "Month", "count", "name", "price"]
  | .daily => ["Date", "count", "name", "price"]

/-- The `match date_interval` dispatch of `src/main.py` lines 76-127. -/
def dateFormatter (i : Interval) (rows : List Row) : Except String (List Row) :=
  formatter i.keys rows

theorem interval_keys_nodup (i : Interval) : i.keys.Nodup := by
  cases i <;> decide

theorem aggCols_disjoint_keys (i : Interval) :
    ∀ c ∈ aggCols, c ∉ i.keys := by
  cases i <;> decide

/-! ## Characterization lemmas for the formatter -/

theorem Row.get_cons_ne {c' c : String} {v : Cell} {r : Row} (h : c' ≠ c) :
    Row.get ((c', v) :: r) c = Row.get r c := by
  simp [Row.get, h]

theorem Row.get_append_right {xs ys : Row} {c : String}
    (h : ∀ p ∈ xs, p.1 ≠ c) : Row.get (xs ++ ys) c = Row.get ys c := by
  induction xs with
  | nil => rfl
  | cons p ps ih =>
      obtain ⟨c', v⟩ := p
      have hc : c' ≠ c := h (c', v) (List.mem_cons_self _ _)
      rw [List.cons_append, Row.get_cons_ne hc]
      exact ih (fun q hq => h q (List.mem_cons_of_mem _ hq))

theorem Row.get_map_pairs (f : String → Cell) :
    ∀ (cs : List String) (c : String), c ∈ cs →
      Row.get (cs.map (fun c => (c, f c))) c = f c := by
  intro cs
  induction cs with
  | nil => intro c hc; cases hc
  | cons c0 cs' ih =>
      intro c hc
      by_cases h0 : c0 = c
      · subst h0
        simp [Row.get]
      · rw [List.map_cons, Row.get_cons_ne h0]
        exact ih c (by
          rcases List.mem_cons.mp hc with h | h
          · exact absurd h.symm h0
          · exact h)

theorem keyOf_zip_append :
    ∀ (ks : List String) (k : List Cell) (rest : Row), ks.Nodup →
      k.length = ks.length → keyOf ks (ks.zip k ++ rest) = k := by
  intro ks
  induction ks with
  | nil =>
      intro k rest _ hlen
      have : k = [] := List.eq_nil_of_length_eq_zero hlen
      subst this
      rfl
  | cons c ks' ih =>
      intro k rest hnd hlen
      match k with
      | [] => simp at hlen
      | v :: k' =>
          rcases List.nodup_cons.mp hnd with ⟨hc, hnd'⟩
          have hlen' : k'.length = ks'.length := by
            simpa using hlen
          have hhead : Row.get ((c, v) :: (ks'.zip k' ++ rest)) c = v := by
            simp [Row.get]
          have htail : ∀ c' ∈ ks',
              Row.get ((c, v) :: (ks'.zip k' ++ rest)) c' =
                Row.get (ks'.zip k' ++ rest) c' := by
            intro c' hc'
            exact Row.get_cons_ne (fun h => hc (h ▸ hc'))
          calc keyOf (c :: ks') ((c :: ks').zip (v :: k') ++ rest)
              = Row.get ((c, v) :: (ks'.zip k' ++ rest)) c ::
                  ks'.map (Row.get ((c, v) :: (ks'.zip k' ++ rest))) := rfl
            _ = v :: ks'.map (Row.get (ks'.zip k' ++ rest)) := by
                rw [hhead]
                congr 1
                exact List.map_congr_left htail
            _ = v :: k' := by rw [show ks'.map (Row.get (ks'.zip k' ++ rest)) =
                  keyOf ks' (ks'.zip k' ++ rest) from rfl, ih k' rest hnd' hlen']

theorem mem_groupKeys {ks : List String} {rows : List Row} {k : List Cell} :
    k ∈ groupKeys ks rows ↔
      ∃ r ∈ rows, hasNullKey ks r = false ∧ keyOf ks r = k := by
  simp only [groupKeys, mem_dedupFirst, List.mem_map, List.mem_filter]
  constructor
  · rintro ⟨r, ⟨hr, hp⟩, hk⟩
    exact ⟨r, hr, by simpa using hp, hk⟩
  · rintro ⟨r, hr, hp, hk⟩
    exact ⟨r, ⟨hr, by simpa using hp⟩, hk⟩

theorem mem_groupKeys_length {ks : List String} {rows : List Row} {k : List Cell}
    (h : k ∈ groupKeys ks rows) : k.length = ks.length := by
  rcases mem_groupKeys.mp h with ⟨r, _, _, hk⟩
  rw [← hk]
  simp [keyOf]

theorem mem_groupKeys_no_null {ks : List String} {rows : List Row} {k : List Cell}
    (h : k ∈ groupKeys ks rows) : Cell.null ∉ k := by
  rcases mem_groupKeys.mp h with ⟨r, _, hp, hk⟩
  rw [← hk]
  simpa [hasNullKey] using hp

theorem groupKeys_nodup (ks : List String) (rows : List Row) :
    (groupKeys ks rows).Nodup :=
  nodup_dedupFirst _

theorem mem_groupRows {ks : List String} {rows : List Row} {k : List Cell} {r : Row} :
    r ∈ groupRows ks rows k ↔ r ∈ rows ∧ keyOf ks r = k := by
  simp [groupRows, List.mem_filter]

theorem keyOf_mkOut {ks : List String} {rows : List Row} {k : List Cell}
    (hnd : ks.Nodup) (hk : k ∈ groupKeys ks rows) :
    keyOf ks (mkOut ks rows k) = k :=
  keyOf_zip_append ks k _ hnd (mem_groupKeys_length hk)

theorem get_mkOut_agg {ks : List String} {rows : List Row} {k : List Cell}
    {c : String} (hc : c ∈ aggCols) (hck : c ∉ ks) :
    Row.get (mkOut ks rows k) c = collectSetVal c (groupRows ks rows k) := by
  unfold mkOut
  rw [Row.get_append_right, Row.get_map_pairs _ _ _ hc]
  intro p hp
  have := List.of_mem_zip hp
  intro h
  exact hck (h ▸ this.1)

theorem formatter_ok_inv {ks : List String} {rows outs : List Row}
    (h : formatter ks rows = Except.ok outs) :
    outs = (groupKeys ks rows).map (mkOut ks rows) := by
  unfold formatter at h
  by_cases hg : ((groupKeys ks rows).all
      (fun k => aggCols.all (fun c => exceptOk (collectSet c (groupRows ks rows k))))) = true
  · rw [if_pos hg] at h
    injection h with h'
    exact h'.symm
  · rw [if_neg hg] at h
    cases h

theorem formatter_map_keyOf {ks : List String} {rows outs : List Row}
    (hnd : ks.Nodup) (h : formatter ks rows = Except.ok outs) :
    outs.map (keyOf ks) = groupKeys ks rows := by
  rw [formatter_ok_inv h, List.map_map]
  have hpt : ∀ k ∈ groupKeys ks rows, (keyOf ks ∘ mkOut ks rows) k = id k := by
    intro k hk
    simp only [Function.comp_apply, id_eq]
    exact keyOf_mkOut hnd hk
  rw [List.map_congr_left hpt, List.map_id]

theorem formatter_no_null_key {ks : List String} {rows outs : List Row}
    (hnd : ks.Nodup) (h : formatter ks rows = Except.ok outs) :
    ∀ out ∈ outs, hasNullKey ks out = false := by
  intro out hout
  rw [formatter_ok_inv h] at hout
  rcases List.mem_map.mp hout with ⟨k, hk, rfl⟩
  have hkey : keyOf ks (mkOut ks rows k) = k := keyOf_mkOut hnd hk
  have : Cell.null ∉ k := mem_groupKeys_no_null hk
  simp [hasNullKey, hkey, this]

theorem all_congr_mem {α : Type} {l : List α} {f g : α → Bool}
    (h : ∀ a ∈ l, f a = g a) : l.all f = l.all g := by
  induction l with
  | nil => rfl
  | cons a as ih =>
      simp only [List.all_cons, h a (List.mem_cons_self _ _),
        ih (fun b hb => h b (List.mem_cons_of_mem _ hb))]

/-! ## First-occurrence order machinery -/

theorem map_filter_comm {α β : Type} (f : α → β) (p : β → Bool) :
    ∀ (l : List α), (l.filter (fun a => p (f a))).map f = (l.map f).filter p := by
  intro l
  induction l with
  | nil => rfl
  | cons a as ih =>
      by_cases hp : p (f a)
      · simp [List.filter_cons, hp, ih]
      · simp [List.filter_cons, hp, ih]

/-- The index of the first occurrence of `x` in a list (length of the list
when absent). -/
def firstIdx {α : Type} [DecidableEq α] (x : α) : List α → Nat
  | [] => 0
  | a :: as => if a = x then 0 else firstIdx x as + 1

theorem firstIdx_cons_self {α : Type} [DecidableEq α] (x : α) (l : List α) :
    firstIdx x (x :: l) = 0 := by
  simp [firstIdx]

theorem firstIdx_cons_ne {α : Type} [DecidableEq α] {a x : α} (l : List α)
    (h : a ≠ x) : firstIdx x (a :: l) = firstIdx x l + 1 := by
  simp [firstIdx, h]

theorem dedupFirst_pairwise_idx {α : Type} [DecidableEq α] :
    ∀ (l : List α),
      (dedupFirst l).Pairwise (fun x y => firstIdx x l < firstIdx y l) := by
  intro l
  induction l with
  | nil => simp [dedupFirst]
  | cons a as ih =>
      refine List.pairwise_cons.mpr ⟨?_, ?_⟩
      · intro y hy
        have hmem := List.mem_filter.mp hy
        have hya : y ≠ a := by simpa using hmem.2
        rw [firstIdx_cons_self, firstIdx_cons_ne as (Ne.symm hya)]
        exact Nat.succ_pos _
      · have hsub : ((dedupFirst as).filter (fun b => b ≠ a)).Pairwise
            (fun x y => firstIdx x as < firstIdx y as) :=
          ih.sublist (List.filter_sublist _)
        refine hsub.imp_of_mem ?_
        intro x y hx hy hlt
        have hxa : x ≠ a := by simpa using (List.mem_filter.mp hx).2
        have hya : y ≠ a := by simpa using (List.mem_filter.mp hy).2
        rw [firstIdx_cons_ne as (Ne.symm hxa), firstIdx_cons_ne as (Ne.symm hya)]
        exact Nat.succ_lt_succ hlt

theorem firstIdx_filter_lt {α : Type} [DecidableEq α] (p : α → Bool) :
    ∀ (l : List α) (x y : α), x ∈ l.filter p → y ∈ l.filter p →
      firstIdx x (l.filter p) < firstIdx y (l.filter p) →
      firstIdx x l < firstIdx y l := by
  intro l
  induction l with
  | nil => intro x y hx _ _; simp at hx
  | cons a t ih =>
      intro x y hx hy hlt
      by_cases hp : p a
      · rw [List.filter_cons_of_pos hp] at hx hy hlt
        by_cases hxa : x = a
        · subst hxa
          have hyx : y ≠ x := by
            intro h
            subst h
            exact Nat.lt_irrefl _ hlt
          rw [firstIdx_cons_self, firstIdx_cons_ne t (Ne.symm hyx)]
          exact Nat.succ_pos _
        · have hya : y ≠ a := by
            intro h
            subst h
            rw [firstIdx_cons_self, firstIdx_cons_ne _ (Ne.symm hxa)] at hlt
            exact Nat.not_lt_zero _ hlt
          rw [firstIdx_cons_ne (t.filter p) (Ne.symm hxa),
            firstIdx_cons_ne (t.filter p) (Ne.symm hya)] at hlt
          have hx' : x ∈ t.filter p := by
            rcases List.mem_cons.mp hx with h | h
            · exact absurd h hxa
            · exact h
          have hy' : y ∈ t.filter p := by
            rcases List.mem_cons.mp hy with h | h
            · exact absurd h hya
            · exact h
          rw [firstIdx_cons_ne t (Ne.symm hxa), firstIdx_cons_ne t (Ne.symm hya)]
          exact Nat.succ_lt_succ (ih x y hx' hy' (Nat.lt_of_succ_lt_succ hlt))
      · rw [List.filter_cons_of_neg hp] at hx hy hlt
        have hxa : x ≠ a := by
          intro h
          exact hp (h ▸ (List.mem_filter.mp hx).2)
        have hya : y ≠ a := by
          intro h
          exact hp (h ▸ (List.mem_filter.mp hy).2)
        rw [firstIdx_cons_ne t (Ne.symm hxa), firstIdx_cons_ne t (Ne.symm hya)]
        exact Nat.succ_lt_succ (ih x y hx hy hlt)

/-- The group keys of `groupKeys`, seen as a filter over the raw key
sequence of the input rows. -/
theorem groupKeys_eq_filter (ks : List String) (rows : List Row) :
    groupKeys ks rows =
      dedupFirst ((rows.map (keyOf ks)).filter (fun k => !(decide (Cell.null ∈ k)))) := by
  unfold groupKeys hasNullKey
  exact congrArg dedupFirst
    (map_filter_comm (keyOf ks) (fun k => !(decide (Cell.null ∈ k))) rows)

/-! ## Claims about the Result Shaper -/

/-- C1: for every non-empty raw result table of the date-range query and
every interval granularity, whenever the shaper returns a table it has
grouped the rows by that interval's group key and replaced each non-key
column (developer, genre, website, platform) with the set of distinct
non-null values observed across the group's rows: every distinct non-null
value appears exactly once, nulls are excluded, and an all-null group
yields an empty set rather than null. -/
theorem date_range_collapse_distinct_nonnull_sets (i : Interval) (rows : List Row)
    (_hne : rows ≠ []) :
    ∀ outs, dateFormatter i rows = Except.ok outs →
    ∀ out ∈ outs, ∀ c ∈ aggCols,
      ∃ S, Row.get out c = Cell.vset S ∧ S.Nodup ∧ Cell.null ∉ S ∧
        (∀ v, v ∈ S ↔ v ≠ Cell.null ∧
          ∃ r ∈ rows, keyOf i.keys r = keyOf i.keys out ∧ Row.get r c = v) ∧
        ((∀ r ∈ rows, keyOf i.keys r = keyOf i.keys out → Row.get r c = Cell.null) →
          S = []) := by
  intro outs houts out hout c hc
  have hnd := interval_keys_nodup i
  rw [formatter_ok_inv houts] at hout
  rcases List.mem_map.mp hout with ⟨k, hk, rfl⟩
  have hkey : keyOf i.keys (mkOut i.keys rows k) = k := keyOf_mkOut hnd hk
  have hget : Row.get (mkOut i.keys rows k) c =
      collectSetVal c (groupRows i.keys rows k) :=
    get_mkOut_agg hc (aggCols_disjoint_keys i c hc)
  rw [hget, hkey]
  refine ⟨dedupFirst (((groupRows i.keys rows k).map
      (fun r => Row.get r c)).filter (fun v => v ≠ Cell.null)),
    rfl, nodup_dedupFirst _, ?_, ?_, ?_⟩
  · intro hmem
    have := (List.mem_filter.mp (mem_dedupFirst.mp hmem)).2
    simp at this
  · intro v
    constructor
    · intro hv
      have hvf := List.mem_filter.mp (mem_dedupFirst.mp hv)
      have hvne : v ≠ Cell.null := by simpa using hvf.2
      rcases List.mem_map.mp hvf.1 with ⟨r, hr, hrv⟩
      rcases mem_groupRows.mp hr with ⟨hrrows, hrkey⟩
      exact ⟨hvne, r, hrrows, hrkey, hrv⟩
    · rintro ⟨hvne, r, hr, hrkey, hrv⟩
      apply mem_dedupFirst.mpr
      apply List.mem_filter.mpr
      exact ⟨List.mem_map.mpr ⟨r, mem_groupRows.mpr ⟨hr, hrkey⟩, hrv⟩, by simpa using hvne⟩
  · intro hall
    apply List.eq_nil_iff_forall_not_mem.mpr
    intro v hv
    have hvf := List.mem_filter.mp (mem_dedupFirst.mp hv)
    have hvne : v ≠ Cell.null := by simpa using hvf.2
    rcases List.mem_map.mp hvf.1 with ⟨r, hr, hrv⟩
    rcases mem_groupRows.mp hr with ⟨hrrows, hrkey⟩
    exact hvne (hrv ▸ hall r hrrows hrkey)

/-- The yearly-collapse scenario rows of the spec: two raw rows agreeing on
all key columns, with developers X and Y. -/
def c1Row1 : Row :=
  [("Year", Cell.int 2020), ("count", Cell.int 5), ("name", Cell.str "A"),
   ("price", Cell.str "9.99"), ("developer", Cell.str "X"), ("genre", Cell.str "Action"),
   ("website", Cell.null), ("platform", Cell.str "Win")]

def c1Row2 : Row :=
  [("Year", Cell.int 2020), ("count", Cell.int 5), ("name", Cell.str "A"),
   ("price", Cell.str "9.99"), ("developer", Cell.str "Y"), ("genre", Cell.str "Action"),
   ("website", Cell.null), ("platform", Cell.str "Win")]

/-- The single collapsed row of the yearly-collapse scenario. -/
def c1Out : Row :=
  [("Year", Cell.int 2020), ("count", Cell.int 5), ("name", Cell.str "A"),
   ("price", Cell.str "9.99"), ("developer", Cell.vset [Cell.str "X", Cell.str "Y"]),
   ("genre", Cell.vset [Cell.str "Action"]), ("website", Cell.vset []),
   ("platform", Cell.vset [Cell.str "Win"])]

/-- Witness for C1 at the spec's yearly-collapse scenario input, which
shapes (without error) to one collapsed row. -/
theorem date_range_collapse_distinct_nonnull_sets_witness :
    (([c1Row1, c1Row2] : List Row) ≠ []) ∧
    dateFormatter Interval.yearly [c1Row1, c1Row2] = Except.ok [c1Out] ∧
    (∀ outs, dateFormatter Interval.yearly [c1Row1, c1Row2] = Except.ok outs →
      ∀ out ∈ outs, ∀ c ∈ aggCols,
        ∃ S, Row.get out c = Cell.vset S ∧ S.Nodup ∧ Cell.null ∉ S ∧
          (∀ v, v ∈ S ↔ v ≠ Cell.null ∧
            ∃ r ∈ ([c1Row1, c1Row2] : List Row),
              keyOf Interval.yearly.keys r = keyOf Interval.yearly.keys out ∧
              Row.get r c = v) ∧
          ((∀ r ∈ ([c1Row1, c1Row2] : List Row),
              keyOf Interval.yearly.keys r = keyOf Interval.yearly.keys out →
              Row.get r c = Cell.null) → S = [])) :=
  ⟨by decide, by decide,
   date_range_collapse_distinct_nonnull_sets Interval.yearly [c1Row1, c1Row2] (by decide)⟩

/-- Two rows with a null `Year` key agreeing on every key column. -/
def c2NullRow1 : Row :=
  [("Year", Cell.null), ("count", Cell.int 5), ("name", Cell.str "A"),
   ("price", Cell.str "9.99"), ("developer", Cell.str "X"), ("genre", Cell.str "Action"),
   ("website", Cell.null), ("platform", Cell.str "Win")]

def c2NullRow2 : Row :=
  [("Year", Cell.null), ("count", Cell.int 5), ("name", Cell.str "A"),
   ("price", Cell.str "9.99"), ("developer", Cell.str "Y"), ("genre", Cell.str "Action"),
   ("website", Cell.null), ("platform", Cell.str "Win")]

/-- C2 counterexample: two non-empty raw rows that agree on every key
column but have a null `Year` key are dropped entirely by the shaper
(pandas `groupby` defaults to `dropna=True`), so the output has zero rows
where the claim requires one collapsed row and no dropped rows. -/
theorem null_key_rows_grouped_counterexample :
    dateFormatter Interval.yearly [c2NullRow1, c2NullRow2] = Except.ok [] ∧
    keyOf Interval.yearly.keys c2NullRow1 = keyOf Interval.yearly.keys c2NullRow2 ∧
    ([c2NullRow1, c2NullRow2] : List Row) ≠ [] := by
  decide

/-- C2 amended: rows with a null value in any key column do not group
together; they are dropped from the output entirely (pandas `groupby`
default `dropna=True`): the shaper's outcome equals its outcome on the
input with all null-key rows removed, and no returned row carries a null
key. -/
theorem null_key_rows_dropped (i : Interval) (rows : List Row) :
    dateFormatter i rows =
      dateFormatter i (rows.filter (fun r => !(hasNullKey i.keys r))) ∧
    ∀ outs, dateFormatter i rows = Except.ok outs →
      ∀ out ∈ outs, hasNullKey i.keys out = false := by
  constructor
  · have hgk : groupKeys i.keys (rows.filter (fun r => !(hasNullKey i.keys r))) =
        groupKeys i.keys rows := by
      unfold groupKeys
      congr 1
      congr 1
      rw [List.filter_filter]
      apply List.filter_congr
      intro r _
      cases h : hasNullKey i.keys r <;> simp [h]
    have hgr : ∀ k ∈ groupKeys i.keys rows,
        groupRows i.keys (rows.filter (fun r => !(hasNullKey i.keys r))) k =
          groupRows i.keys rows k := by
      intro k hk
      unfold groupRows
      rw [List.filter_filter]
      apply List.filter_congr
      intro r _
      by_cases hkr : keyOf i.keys r = k
      · have hnull : hasNullKey i.keys r = false := by
          have hnn := mem_groupKeys_no_null hk
          simp [hasNullKey, hkr, hnn]
        simp [hkr, hnull]
      · simp [hkr]
    unfold dateFormatter formatter
    rw [hgk]
    have hguard : ((groupKeys i.keys rows).all (fun k => aggCols.all (fun c =>
        exceptOk (collectSet c (groupRows i.keys
          (rows.filter (fun r => !(hasNullKey i.keys r))) k))))) =
        ((groupKeys i.keys rows).all (fun k => aggCols.all (fun c =>
          exceptOk (collectSet c (groupRows i.keys rows k))))) := by
      apply all_congr_mem
      intro k hk
      rw [hgr k hk]
    have htable : (groupKeys i.keys rows).map
        (mkOut i.keys (rows.filter (fun r => !(hasNullKey i.keys r)))) =
        (groupKeys i.keys rows).map (mkOut i.keys rows) := by
      apply List.map_congr_left
      intro k hk
      unfold mkOut
      rw [hgr k hk]
    rw [hguard, htable]
  · intro outs houts out hout
    exact formatter_no_null_key (interval_keys_nodup i) houts out hout

/-- A scalar raw row and its collapsed image: after one collapse, every
collapsed non-key column holds a set cell. -/
def c7Row : Row :=
  [("Year", Cell.int 2020), ("count", Cell.int 5), ("name", Cell.str "A"),
   ("price", Cell.str "9.99"), ("developer", Cell.str "X"), ("genre", Cell.str "Action"),
   ("website", Cell.null), ("platform", Cell.str "Win")]

def c7Shaped : Row :=
  [("Year", Cell.int 2020), ("count", Cell.int 5), ("name", Cell.str "A"),
   ("price", Cell.str "9.99"), ("developer", Cell.vset [Cell.str "X"]),
   ("genre", Cell.vset [Cell.str "Action"]), ("website", Cell.vset []),
   ("platform", Cell.vset [Cell.str "Win"])]

/-- Witness for C2's amended claim at a mixed input: the null-key row is
dropped, the surviving row collapses, and the returned row has no null
key. -/
theorem null_key_rows_dropped_witness :
    (dateFormatter Interval.yearly [c2NullRow1, c7Row] =
      dateFormatter Interval.yearly
        (([c2NullRow1, c7Row] : List Row).filter
          (fun r => !(hasNullKey Interval.yearly.keys r)))) ∧
    (dateFormatter Interval.yearly [c2NullRow1, c7Row] = Except.ok [c7Shaped]) ∧
    hasNullKey Interval.yearly.keys c7Shaped = false :=
  ⟨(null_key_rows_dropped Interval.yearly [c2NullRow1, c7Row]).1,
   by decide,
   (null_key_rows_dropped Interval.yearly [c2NullRow1, c7Row]).2 [c7Shaped]
     (by decide) c7Shaped (by decide)⟩

/-- C3: for every raw result table and interval granularity, the rows of a
returned shaped table appear in first-occurrence order of each distinct
group-key combination in the raw input (stable grouping, not a key sort):
the output keys are distinct, each occurs in the raw input, and their
order follows the index of each key's first occurrence in the raw key
sequence. -/
theorem date_range_first_occurrence_order (i : Interval) (rows : List Row) :
    ∀ outs, dateFormatter i rows = Except.ok outs →
      (outs.map (keyOf i.keys)).Nodup ∧
      (∀ k ∈ outs.map (keyOf i.keys), k ∈ rows.map (keyOf i.keys)) ∧
      (outs.map (keyOf i.keys)).Pairwise
        (fun k1 k2 => firstIdx k1 (rows.map (keyOf i.keys)) <
          firstIdx k2 (rows.map (keyOf i.keys))) := by
  intro outs houts
  have hnd := interval_keys_nodup i
  have hmap : outs.map (keyOf i.keys) = groupKeys i.keys rows :=
    formatter_map_keyOf hnd houts
  rw [hmap, groupKeys_eq_filter]
  refine ⟨nodup_dedupFirst _, ?_, ?_⟩
  · intro k hk
    exact List.mem_of_mem_filter (mem_dedupFirst.mp hk)
  · have hpair := dedupFirst_pairwise_idx
      ((rows.map (keyOf i.keys)).filter (fun k => !(decide (Cell.null ∈ k))))
    refine hpair.imp_of_mem ?_
    intro x y hx hy hlt
    exact firstIdx_filter_lt _ _ x y (mem_dedupFirst.mp hx) (mem_dedupFirst.mp hy) hlt

/-- Rows for the C3 witness: the first group key recurs after a second,
later key. -/
def c3RowA : Row :=
  [("Year", Cell.int 2020), ("count", Cell.int 1), ("name", Cell.str "A"),
   ("price", Cell.str "1.00"), ("developer", Cell.str "X"), ("genre", Cell.null),
   ("website", Cell.null), ("platform", Cell.null)]

def c3RowB : Row :=
  [("Year", Cell.int 2021), ("count", Cell.int 2), ("name", Cell.str "B"),
   ("price", Cell.str "2.00"), ("developer", Cell.str "Y"), ("genre", Cell.null),
   ("website", Cell.null), ("platform", Cell.null)]

def c3OutA : Row :=
  [("Year", Cell.int 2020), ("count", Cell.int 1), ("name", Cell.str "A"),
   ("price", Cell.str "1.00"), ("developer", Cell.vset [Cell.str "X"]),
   ("genre", Cell.vset []), ("website", Cell.vset []), ("platform", Cell.vset [])]

def c3OutB : Row :=
  [("Year", Cell.int 2021), ("count", Cell.int 2), ("name", Cell.str "B"),
   ("price", Cell.str "2.00"), ("developer", Cell.vset [Cell.str "Y"]),
   ("genre", Cell.vset []), ("website", Cell.vset []), ("platform", Cell.vset [])]

/-- Witness for C3 at a concrete table `[A, B, A]`: the output keys come
out in first-occurrence order `[A, B]`. -/
theorem date_range_first_occurrence_order_witness :
    (dateFormatter Interval.yearly [c3RowA, c3RowB, c3RowA] =
      Except.ok [c3OutA, c3OutB]) ∧
    ((([c3OutA, c3OutB] : List Row).map (keyOf Interval.yearly.keys)).Nodup ∧
     (∀ k ∈ ([c3OutA, c3OutB] : List Row).map (keyOf Interval.yearly.keys),
        k ∈ ([c3RowA, c3RowB, c3RowA] : List Row).map (keyOf Interval.yearly.keys)) ∧
     (([c3OutA, c3OutB] : List Row).map (keyOf Interval.yearly.keys)).Pairwise
       (fun k1 k2 =>
         firstIdx k1
             (([c3RowA, c3RowB, c3RowA] : List Row).map (keyOf Interval.yearly.keys)) <
         firstIdx k2
             (([c3RowA, c3RowB, c3RowA] : List Row).map (keyOf Interval.yearly.keys)))) :=
  ⟨by decide,
   date_range_first_occurrence_order Interval.yearly [c3RowA, c3RowB, c3RowA]
     [c3OutA, c3OutB] (by decide)⟩

/-- C4: an empty raw result table shapes to an empty display table with the
date-range column schema (group keys, then the collapsed columns), raising
no error. -/
theorem empty_input_empty_output :
    (∀ i : Interval, dateFormatter i [] = Except.ok []) ∧
    formatterSchema Interval.yearly.keys =
      ["Year", "count", "name", "price", "developer", "genre", "website", "platform"] :=
  ⟨fun i => by cases i <;> rfl, rfl⟩

/-- C7 counterexample: a non-empty raw table collapses to a one-row table,
and re-applying the shaper to that collapsed table raises `TypeError`
(Python `set()` over a column whose elements are unhashable set cells)
instead of returning a table with the same number of rows. -/
theorem shaper_collapse_idempotent_counterexample :
    dateFormatter Interval.yearly [c7Row] = Except.ok [c7Shaped] ∧
    dateFormatter Interval.yearly [c7Shaped] = Except.error "TypeError" := by
  decide

/-- C7 amended: a second application of the shaper to a once-collapsed
table is not idempotent on the code: on a non-empty collapsed table,
`set(x.dropna().tolist())` runs over columns holding unhashable set cells
and raises `TypeError`, so no output table is produced at all; only on an
empty collapsed table does the second application return (the empty
table, trivially with no row reduction). -/
theorem shaper_reapply_type_error (i : Interval) (rows shaped : List Row)
    (h : dateFormatter i rows = Except.ok shaped) :
    (shaped = [] → dateFormatter i shaped = Except.ok []) ∧
    (shaped ≠ [] → dateFormatter i shaped = Except.error "TypeError") := by
  constructor
  · rintro rfl
    cases i <;> rfl
  · intro hne
    have hnd := interval_keys_nodup i
    obtain ⟨out0, hout0⟩ : ∃ out0, out0 ∈ shaped := by
      cases shaped with
      | nil => exact absurd rfl hne
      | cons a l => exact ⟨a, List.mem_cons_self _ _⟩
    have hnull0 : hasNullKey i.keys out0 = false :=
      formatter_no_null_key hnd h out0 hout0
    have hout0' : ∃ k ∈ groupKeys i.keys rows, mkOut i.keys rows k = out0 := by
      rw [formatter_ok_inv h] at hout0
      exact List.mem_map.mp hout0
    rcases hout0' with ⟨k, hk, hke⟩
    have hdev : "developer" ∈ aggCols := by decide
    have hgetdev : Row.get out0 "developer" =
        collectSetVal "developer" (groupRows i.keys rows k) := by
      rw [← hke]
      exact get_mkOut_agg hdev (aggCols_disjoint_keys i _ hdev)
    have hout0mem : out0 ∈ shaped := hout0
    have hk0 : keyOf i.keys out0 ∈ groupKeys i.keys shaped :=
      mem_groupKeys.mpr ⟨out0, hout0mem, hnull0, rfl⟩
    have hout0g : out0 ∈ groupRows i.keys shaped (keyOf i.keys out0) :=
      mem_groupRows.mpr ⟨hout0mem, rfl⟩
    have hraise : collectSet "developer"
        (groupRows i.keys shaped (keyOf i.keys out0)) = Except.error "TypeError" := by
      unfold collectSet
      have hmem : Row.get out0 "developer" ∈
          (((groupRows i.keys shaped (keyOf i.keys out0)).map
            (fun r => Row.get r "developer")).filter (fun v => v ≠ Cell.null)) := by
        apply List.mem_filter.mpr
        constructor
        · exact List.mem_map.mpr ⟨out0, hout0g, rfl⟩
        · rw [hgetdev]
          simp [collectSetVal]
      have hfalse : (((groupRows i.keys shaped (keyOf i.keys out0)).map
          (fun r => Row.get r "developer")).filter
            (fun v => v ≠ Cell.null)).all Cell.hashable = false := by
        cases hx : (((groupRows i.keys shaped (keyOf i.keys out0)).map
            (fun r => Row.get r "developer")).filter
              (fun v => v ≠ Cell.null)).all Cell.hashable with
        | false => rfl
        | true =>
            exfalso
            have hh := List.all_eq_true.mp hx _ hmem
            rw [hgetdev] at hh
            simp [collectSetVal, Cell.hashable] at hh
      have hcond : ¬ ((((groupRows i.keys shaped (keyOf i.keys out0)).map
          (fun r => Row.get r "developer")).filter
            (fun v => v ≠ Cell.null)).all Cell.hashable = true) := by
        rw [hfalse]
        simp
      rw [if_neg hcond]
    cases hguard : (groupKeys i.keys shaped).all
        (fun k' => aggCols.all (fun c =>
          exceptOk (collectSet c (groupRows i.keys shaped k')))) with
    | true =>
        exfalso
        have h1 := List.all_eq_true.mp hguard _ hk0
        have h2 := List.all_eq_true.mp h1 _ hdev
        rw [hraise] at h2
        simp [exceptOk] at h2
    | false =>
        unfold dateFormatter formatter
        have hcond : ¬ ((groupKeys i.keys shaped).all
            (fun k' => aggCols.all (fun c =>
              exceptOk (collectSet c (groupRows i.keys shaped k')))) = true) := by
          rw [hguard]
          simp
        rw [if_neg hcond]

/-- Witness for C7's amended claim at the counterexample table: the second
application really raises. -/
theorem shaper_reapply_type_error_witness :
    (dateFormatter Interval.yearly [c7Row] = Except.ok [c7Shaped]) ∧
    (([c7Shaped] : List Row) ≠ []) ∧
    dateFormatter Interval.yearly [c7Shaped] = Except.error "TypeError" :=
  ⟨by decide, by decide,
   (shaper_reapply_type_error Interval.yearly [c7Row] [c7Shaped] (by decide)).2
     (by decide)⟩

/-! ## Chart Projector: parsing and stable sorting -/

/-- Python `str.split(sep)` with a one-character separator, over the
character list of the string. -/
def splitChar (sep : Char) : List Char → List (List Char)
  | [] => [[]]
  | c :: cs =>
      let rest := splitChar sep cs
      if c = sep then [] :: rest
      else
        match rest with
        | [] => [[c]]
        | g :: gs => (c :: g) :: gs

/-- The numeric value of a non-empty all-digit character list. -/
def digitsVal (cs : List Char) : Option Nat :=
  if cs.isEmpty then none
  else
    cs.foldl (fun acc c =>
      match acc with
      | none => none
      | some n => if c.isDigit then some (10 * n + (c.toNat - 48)) else none)
      (some 0)

/-- An exact non-negative decimal number `num / 10 ^ exp`: the value of a
parsed decimal literal (the backend's price bounds and review metrics are
such literals, which floats represent exactly enough for the claims'
comparisons). -/
structure Dec where
  num : Nat
  exp : Nat
deriving DecidableEq

/-- The rational value of a parsed decimal. -/
def Dec.toRat (d : Dec) : ℚ := (d.num : ℚ) / 10 ^ d.exp

/-- Comparison of parsed decimals by integer cross-multiplication. -/
def Dec.le (a b : Dec) : Bool :=
  decide (a.num * 10 ^ b.exp ≤ b.num * 10 ^ a.exp)

theorem Dec.le_iff (a b : Dec) : Dec.le a b = true ↔ a.toRat ≤ b.toRat := by
  unfold Dec.le Dec.toRat
  rw [decide_eq_true_eq]
  have h1 : (0 : ℚ) < 10 ^ a.exp := by positivity
  have h2 : (0 : ℚ) < 10 ^ b.exp := by positivity
  rw [div_le_div_iff₀ h1 h2]
  constructor
  · intro h
    exact_mod_cast h
  · intro h
    exact_mod_cast h

theorem Dec.le_total (a b : Dec) : (Dec.le a b || Dec.le b a) = true := by
  unfold Dec.le
  rcases Nat.le_total (a.num * 10 ^ b.exp) (b.num * 10 ^ a.exp) with h | h
  · simp [h]
  · simp [h]

theorem Dec.le_trans {a b c : Dec} (h1 : Dec.le a b = true)
    (h2 : Dec.le b c = true) : Dec.le a c = true :=
  (Dec.le_iff a c).mpr (((Dec.le_iff a b).mp h1).trans ((Dec.le_iff b c).mp h2))

/-- Python `float(s)` on the decimal literals the backend emits
(`"<digits>"` or `"<digits>.<digits>"`); `none` models the `ValueError`
raised on any other string. -/
def parseFloat (s : String) : Option Dec :=
  match splitChar '.' s.data with
  | [a] => (digitsVal a).map (fun n => Dec.mk n 0)
  | [a, b] =>
      match digitsVal a, digitsVal b with
      | some n, some m => some (Dec.mk (n * 10 ^ b.length + m) b.length)
      | _, _ => none
  | _ => none

/-- `float(x.split('-')[0])`: the numeric lower bound parsed from a
`"<min>-<max>"` range string. -/
def minPrice (s : String) : Option Dec :=
  parseFloat (String.mk ((splitChar '-' s.data).headD []))

/-- The rational value of the parsed lower bound (0 when unparseable; the
parse failure path raises instead of sorting). -/
def minPriceVal (s : String) : ℚ :=
  ((minPrice s).getD (Dec.mk 0 0)).toRat

instance {ε α : Type} [DecidableEq ε] [DecidableEq α] : DecidableEq (Except ε α) :=
  fun a b =>
    match a, b with
    | .ok x, .ok y => decidable_of_iff (x = y) (by simp)
    | .error e, .error f => decidable_of_iff (e = f) (by simp)
    | .ok _, .error _ => isFalse (by simp)
    | .error _, .ok _ => isFalse (by simp)

/-- Stable insertion into a sorted accumulator: the new element goes after
every element already `le`-before-or-equal to it. -/
def insertSorted {α : Type} (le : α → α → Bool) (a : α) : List α → List α
  | [] => [a]
  | b :: bs => if le b a then b :: insertSorted le a bs else a :: b :: bs

/-- Stable insertion sort by `le`: the semantics of pandas `sort_values`
(a stable sort) and of the sorted keys of a default (`sort=True`)
`groupby`. -/
def sortByLe {α : Type} (le : α → α → Bool) (l : List α) : List α :=
  l.foldl (fun acc a => insertSorted le a acc) []

theorem insertSorted_perm {α : Type} (le : α → α → Bool) (a : α) :
    ∀ (l : List α), (insertSorted le a l).Perm (a :: l) := by
  intro l
  induction l with
  | nil => exact List.Perm.refl _
  | cons b bs ih =>
      by_cases h : le b a
      · simp only [insertSorted, h, if_true]
        exact (ih.cons b).trans (List.Perm.swap a b bs)
      · simp only [insertSorted, h, if_false, Bool.false_eq_true]
        exact List.Perm.refl _

theorem sortByLe_foldl_perm {α : Type} (le : α → α → Bool) :
    ∀ (l acc : List α),
      (l.foldl (fun acc a => insertSorted le a acc) acc).Perm (acc ++ l) := by
  intro l
  induction l with
  | nil => intro acc; simp
  | cons a as ih =>
      intro acc
      have h1 := ih (insertSorted le a acc)
      have h2 : (insertSorted le a acc ++ as).Perm ((a :: acc) ++ as) :=
        (insertSorted_perm le a acc).append_right as
      have h3 : ((a :: acc) ++ as).Perm (acc ++ a :: as) := List.perm_middle.symm
      simpa using (h1.trans h2).trans h3

theorem sortByLe_perm {α : Type} (le : α → α → Bool) (l : List α) :
    (sortByLe le l).Perm l := by
  have := sortByLe_foldl_perm le l []
  simpa [sortByLe] using this

theorem insertSorted_pairwise {α : Type} (le : α → α → Bool)
    (htot : ∀ a b, (le a b || le b a) = true)
    (htrans : ∀ a b c, le a b = true → le b c = true → le a c = true)
    (a : α) :
    ∀ (l : List α), l.Pairwise (fun x y => le x y = true) →
      (insertSorted le a l).Pairwise (fun x y => le x y = true) := by
  intro l
  induction l with
  | nil => intro _; simp [insertSorted]
  | cons b bs ih =>
      intro hl
      rcases List.pairwise_cons.mp hl with ⟨hb, hbs⟩
      by_cases h : le b a
      · simp only [insertSorted, h, if_true]
        refine List.pairwise_cons.mpr ⟨?_, ih hbs⟩
        intro y hy
        have hy' : y ∈ a :: bs := (insertSorted_perm le a bs).mem_iff.mp hy
        rcases List.mem_cons.mp hy' with rfl | hy''
        · exact h
        · exact hb y hy''
      · have hab : le a b = true := by
          have := htot a b
          rcases Bool.or_eq_true_iff.mp this with h' | h'
          · exact h'
          · exact absurd h' h
        simp only [insertSorted, h, if_false, Bool.false_eq_true]
        refine List.pairwise_cons.mpr ⟨?_, hl⟩
        intro y hy
        rcases List.mem_cons.mp hy with rfl | hy'
        · exact hab
        · exact htrans a b y hab (hb y hy')

theorem sortByLe_pairwise {α : Type} (le : α → α → Bool)
    (htot : ∀ a b, (le a b || le b a) = true)
    (htrans : ∀ a b c, le a b = true → le b c = true → le a c = true)
    (l : List α) :
    (sortByLe le l).Pairwise (fun x y => le x y = true) := by
  suffices h : ∀ (acc : List α), acc.Pairwise (fun x y => le x y = true) →
      (l.foldl (fun acc a => insertSorted le a acc) acc).Pairwise
        (fun x y => le x y = true) by
    exact h [] (by simp)
  induction l with
  | nil => intro acc hacc; simpa using hacc
  | cons a as ih =>
      intro acc hacc
      exact ih (insertSorted le a acc) (insertSorted_pairwise le htot htrans a acc hacc)

/-! ## Chart Projector: price/developer query (src/main.py lines 237-250) -/

/-- The `full_price_interval` category of a row, when present as a string
(null categories are dropped by the chart's `groupby`; the backend emits
this column as `"<min>-<max>"` strings). -/
def catOf (r : Row) : Option String :=
  match Row.get r "full_price_interval" with
  | Cell.str s => some s
  | _ => none

/-- The integer `count` cell of a row (the backend emits integer counts). -/
def countOf (r : Row) : Int :=
  match Row.get r "count" with
  | Cell.int n => n
  | _ => 0

/-- Lexicographic comparison on strings: the key order of the chart's
default (`sort=True`) `groupby`. -/
def strLe (a b : String) : Bool := compare a b != Ordering.gt

/-- The categories of `df.data.groupby('full_price_interval')`: the
distinct non-null categories, in sorted key order. -/
def priceDevCats (rows : List Row) : List String :=
  sortByLe strLe (dedupFirst (rows.filterMap catOf))

/-- `agg({"count": "sum"})`: the summed `count` of one category. -/
def sumCount (rows : List Row) (c : String) : Int :=
  ((rows.filter (fun r => catOf r = some c)).map countOf).sum

/-- The comparator of the secondary numeric sort
(`sort_values(by='min_price')`): ascending by the parsed lower bound. -/
def minPriceLe (p q : String × Int) : Bool :=
  Dec.le ((minPrice p.1).getD (Dec.mk 0 0)) ((minPrice q.1).getD (Dec.mk 0 0))

/-- The chart table of the price/developer query with pivot axis "price":
sum `count` per `full_price_interval` category, parse each category's
numeric lower bound (`float(x.split('-')[0])`, which raises `ValueError`
on an unparseable string), and stable-sort ascending by it. -/
def priceDevChartCalc (rows : List Row) : Except String (List (String × Int)) :=
  if (priceDevCats rows).all (fun c => (minPrice c).isSome) then
    Except.ok (sortByLe minPriceLe
      ((priceDevCats rows).map (fun c => (c, sumCount rows c))))
  else Except.error "ValueError"

/-- The chart branch of the price/developer query: a chart is produced
only when the pivot axis is "price" (`if pivot_axis == "price":`). -/
def priceDevChart (pivot : String) (rows : List Row) :
    Option (Except String (List (String × Int))) :=
  if pivot = "price" then some (priceDevChartCalc rows) else none

/-- C5: for every shaped table of the price/developer query, with pivot
axis "price" the projector sums `count` within each `full_price_interval`
category and orders the categories ascending by the numeric lower bound
parsed from the first `-`-separated token of the range string (not
lexicographically); with pivot axis "developer" no chart series is
produced. -/
theorem price_dev_chart_sorted_by_lower_bound (rows : List Row)
    (h : (priceDevCats rows).all (fun c => (minPrice c).isSome) = true) :
    ∃ ps, priceDevChart "price" rows = some (Except.ok ps) ∧
      ps.Pairwise (fun p q => minPriceVal p.1 ≤ minPriceVal q.1) ∧
      (∀ p ∈ ps, p.2 = sumCount rows p.1) ∧
      (ps.map Prod.fst).Perm (dedupFirst (rows.filterMap catOf)) ∧
      priceDevChart "developer" rows = none := by
  refine ⟨sortByLe minPriceLe
      ((priceDevCats rows).map (fun c => (c, sumCount rows c))), ?_, ?_, ?_, ?_, rfl⟩
  · simp [priceDevChart, priceDevChartCalc, h]
  · have htot : ∀ p q : String × Int, (minPriceLe p q || minPriceLe q p) = true := by
      intro p q
      exact Dec.le_total _ _
    have htrans : ∀ p q r : String × Int, minPriceLe p q = true →
        minPriceLe q r = true → minPriceLe p r = true := by
      intro p q r h1 h2
      exact Dec.le_trans h1 h2
    have hp := sortByLe_pairwise minPriceLe htot htrans
      ((priceDevCats rows).map (fun c => (c, sumCount rows c)))
    refine hp.imp ?_
    intro p q hle
    exact (Dec.le_iff _ _).mp hle
  · intro p hp
    have hmem : p ∈ (priceDevCats rows).map (fun c => (c, sumCount rows c)) :=
      (sortByLe_perm minPriceLe _).mem_iff.mp hp
    rcases List.mem_map.mp hmem with ⟨c, _, rfl⟩
    rfl
  · have h1 : ((sortByLe minPriceLe
        ((priceDevCats rows).map (fun c => (c, sumCount rows c)))).map Prod.fst).Perm
        (((priceDevCats rows).map (fun c => (c, sumCount rows c))).map Prod.fst) :=
      (sortByLe_perm minPriceLe _).map Prod.fst
    have h2 : ((priceDevCats rows).map (fun c => (c, sumCount rows c))).map Prod.fst =
        priceDevCats rows := by
      rw [List.map_map]
      exact List.map_id _
    have h3 : (priceDevCats rows).Perm (dedupFirst (rows.filterMap catOf)) :=
      sortByLe_perm strLe _
    rw [h2] at h1
    exact h1.trans h3

/-- The price/developer scenario rows of the spec's price-range sort
property, with categories given in an order that differs from both
lexicographic and numeric order. -/
def c5Row1 : Row := [("full_price_interval", Cell.str "100.00-150.00"), ("count", Cell.int 3)]

def c5Row2 : Row := [("full_price_interval", Cell.str "9.99-19.99"), ("count", Cell.int 1)]

def c5Row3 : Row := [("full_price_interval", Cell.str "20.00-29.99"), ("count", Cell.int 2)]

/-- Witness for C5 at the spec's example categories; additionally checks
the concrete ordered output, which differs from lexicographic string
order. -/
theorem price_dev_chart_sorted_by_lower_bound_witness :
    ((priceDevCats [c5Row1, c5Row2, c5Row3]).all
        (fun c => (minPrice c).isSome) = true) ∧
    (∃ ps, priceDevChart "price" [c5Row1, c5Row2, c5Row3] = some (Except.ok ps) ∧
      ps.Pairwise (fun p q => minPriceVal p.1 ≤ minPriceVal q.1) ∧
      (∀ p ∈ ps, p.2 = sumCount [c5Row1, c5Row2, c5Row3] p.1) ∧
      (ps.map Prod.fst).Perm (dedupFirst ([c5Row1, c5Row2, c5Row3].filterMap catOf)) ∧
      priceDevChart "developer" [c5Row1, c5Row2, c5Row3] = none) ∧
    priceDevChartCalc [c5Row1, c5Row2, c5Row3] =
      Except.ok [("9.99-19.99", 1), ("20.00-29.99", 2), ("100.00-150.00", 3)] :=
  ⟨by decide,
   price_dev_chart_sorted_by_lower_bound [c5Row1, c5Row2, c5Row3] (by decide),
   by decide⟩

/-! ## Chart Projector: price-range reviews query (src/main.py lines 184-204) -/

/-- `astype(float)` on one cell of a review-metric column: an integer or a
decimal-literal string is coerced (the backend's review metrics are
non-negative); a null becomes NaN (inner `none`); an unparseable string
raises `ValueError`; a set cell (never present in this query's raw rows)
would raise `TypeError`. -/
def cellToFloat : Cell → Except String (Option Dec)
  | Cell.null => Except.ok none
  | Cell.int n => Except.ok (some (Dec.mk n.toNat 0))
  | Cell.str s =>
      match parseFloat s with
      | some d => Except.ok (some d)
      | none => Except.error "ValueError"
  | Cell.vset _ => Except.error "TypeError"

/-- Whether `astype(float)` accepts a cell. -/
def floatOk (c : Cell) : Bool :=
  match cellToFloat c with
  | Except.ok _ => true
  | Except.error _ => false

/-- The coerced value of an accepted cell. -/
def floatVal (c : Cell) : Option Dec :=
  match cellToFloat c with
  | Except.ok v => v
  | Except.error _ => none

/-- The three review-metric columns, in the coercion order of the source
(lines 185-187). -/
def reviewsCols : List String :=
  ["avg_negative_reviews", "avg_positive_reviews", "avg_recommendations"]

/-- Coerce a whole column to float, failing at the first unparseable cell
as pandas `astype(float)` raises. -/
def coerceColumn (c : String) : List Row → Except String (List (Option Dec))
  | [] => Except.ok []
  | r :: rs =>
      match cellToFloat (Row.get r c) with
      | Except.error e => Except.error e
      | Except.ok q =>
          match coerceColumn c rs with
          | Except.error e => Except.error e
          | Except.ok qs => Except.ok (q :: qs)

/-- The price-range category column of the reviews table (named
`price_range` in the spec's scenario for this query). -/
def priceRangeCol : String := "price_range"

/-- The two chart series of the reviews query: the positive/negative
series and the recommendations series, after the three column coercions
(in source order). `st.bar_chart(df.data, y=[...])` is called with no
`x` (lines 191-204), so each series is keyed by the dataframe's default
RangeIndex — the positional row index 0..n-1 — not by the price-range
column. -/
def reviewsCharts (rows : List Row) :
    Except String (List (Cell × Option Dec × Option Dec) × List (Cell × Option Dec)) :=
  match coerceColumn "avg_negative_reviews" rows with
  | Except.error e => Except.error e
  | Except.ok negs =>
      match coerceColumn "avg_positive_reviews" rows with
      | Except.error e => Except.error e
      | Except.ok poss =>
          match coerceColumn "avg_recommendations" rows with
          | Except.error e => Except.error e
          | Except.ok recos =>
              let idx := (List.range rows.length).map (fun i => Cell.int (Int.ofNat i))
              Except.ok (idx.zip (poss.zip negs), idx.zip recos)

theorem coerceColumn_ok {c : String} {rows : List Row}
    (h : ∀ r ∈ rows, floatOk (Row.get r c) = true) :
    coerceColumn c rows = Except.ok (rows.map (fun r => floatVal (Row.get r c))) := by
  induction rows with
  | nil => rfl
  | cons r rs ih =>
      have hr := h r (List.mem_cons_self _ _)
      have hrs := ih (fun r' hr' => h r' (List.mem_cons_of_mem _ hr'))
      have hv : ∃ v, cellToFloat (Row.get r c) = Except.ok v := by
        unfold floatOk at hr
        cases hcell : cellToFloat (Row.get r c) with
        | error e => rw [hcell] at hr; simp at hr
        | ok v => exact ⟨v, rfl⟩
      rcases hv with ⟨v, hcell⟩
      have hfv : floatVal (Row.get r c) = v := by
        unfold floatVal
        rw [hcell]
      simp only [coerceColumn, hcell, hrs, List.map_cons, hfv]

theorem coerceColumn_error {c : String} {rows : List Row}
    (h : ∃ r ∈ rows, floatOk (Row.get r c) = false) :
    ∃ e, coerceColumn c rows = Except.error e := by
  induction rows with
  | nil => rcases h with ⟨r, hr, _⟩; cases hr
  | cons r rs ih =>
      unfold coerceColumn
      cases hcell : cellToFloat (Row.get r c) with
      | error e => exact ⟨e, rfl⟩
      | ok v =>
          rcases h with ⟨r', hr', hfail⟩
          rcases List.mem_cons.mp hr' with rfl | hr''
          · unfold floatOk at hfail
            rw [hcell] at hfail
            simp at hfail
          · rcases ih ⟨r', hr'', hfail⟩ with ⟨e, he⟩
            rw [he]
            exact ⟨e, rfl⟩

/-- C6 amended: for every shaped table of the price-range reviews query,
the projector yields two chart series keyed by the dataframe's positional
row index (the default RangeIndex, since `st.bar_chart` receives no `x`)
— one from the positive and negative review averages, one from the
recommendation averages — with every value coerced to floating point; if
any value cannot be parsed as a float it fails with `ValueError`, and no
row is silently dropped (the ok case keeps one entry per input row). -/
theorem reviews_charts_float_coercion (rows : List Row) :
    ((∀ r ∈ rows, ∀ c ∈ reviewsCols, floatOk (Row.get r c) = true) →
      reviewsCharts rows = Except.ok
        (((List.range rows.length).map (fun i => Cell.int (Int.ofNat i))).zip
            ((rows.map (fun r => floatVal (Row.get r "avg_positive_reviews"))).zip
             (rows.map (fun r => floatVal (Row.get r "avg_negative_reviews")))),
         ((List.range rows.length).map (fun i => Cell.int (Int.ofNat i))).zip
            (rows.map (fun r => floatVal (Row.get r "avg_recommendations")))) ∧
      (∀ s1 s2, reviewsCharts rows = Except.ok (s1, s2) →
        s1.length = rows.length ∧ s2.length = rows.length)) ∧
    ((∃ r ∈ rows, ∃ c ∈ reviewsCols, floatOk (Row.get r c) = false) →
      ∃ e, reviewsCharts rows = Except.error e) := by
  constructor
  · intro h
    have hneg : coerceColumn "avg_negative_reviews" rows =
        Except.ok (rows.map (fun r => floatVal (Row.get r "avg_negative_reviews"))) :=
      coerceColumn_ok (fun r hr => h r hr _ (by simp [reviewsCols]))
    have hpos : coerceColumn "avg_positive_reviews" rows =
        Except.ok (rows.map (fun r => floatVal (Row.get r "avg_positive_reviews"))) :=
      coerceColumn_ok (fun r hr => h r hr _ (by simp [reviewsCols]))
    have hrec : coerceColumn "avg_recommendations" rows =
        Except.ok (rows.map (fun r => floatVal (Row.get r "avg_recommendations"))) :=
      coerceColumn_ok (fun r hr => h r hr _ (by simp [reviewsCols]))
    have heq : reviewsCharts rows = Except.ok
        (((List.range rows.length).map (fun i => Cell.int (Int.ofNat i))).zip
            ((rows.map (fun r => floatVal (Row.get r "avg_positive_reviews"))).zip
             (rows.map (fun r => floatVal (Row.get r "avg_negative_reviews")))),
         ((List.range rows.length).map (fun i => Cell.int (Int.ofNat i))).zip
            (rows.map (fun r => floatVal (Row.get r "avg_recommendations")))) := by
      unfold reviewsCharts
      rw [hneg, hpos, hrec]
    refine ⟨heq, ?_⟩
    intro s1 s2 hs
    rw [heq] at hs
    injection hs with hpair
    rw [Prod.mk.injEq] at hpair
    obtain ⟨rfl, rfl⟩ := hpair
    constructor
    · simp only [List.length_zip, List.length_map, List.length_range, Nat.min_self]
    · simp only [List.length_zip, List.length_map, List.length_range, Nat.min_self]
  · rintro ⟨r, hr, c, hcmem, hfail⟩
    have hcmem' : c = "avg_negative_reviews" ∨ c = "avg_positive_reviews" ∨
        c = "avg_recommendations" := by simpa [reviewsCols] using hcmem
    unfold reviewsCharts
    rcases hcmem' with rfl | rfl | rfl
    · rcases coerceColumn_error ⟨r, hr, hfail⟩ with ⟨e, he⟩
      rw [he]
      exact ⟨e, rfl⟩
    · cases hneg : coerceColumn "avg_negative_reviews" rows with
      | error e => exact ⟨e, rfl⟩
      | ok negs =>
          rcases coerceColumn_error ⟨r, hr, hfail⟩ with ⟨e, he⟩
          rw [he]
          exact ⟨e, rfl⟩
    · cases hneg : coerceColumn "avg_negative_reviews" rows with
      | error e => exact ⟨e, rfl⟩
      | ok negs =>
          cases hpos : coerceColumn "avg_positive_reviews" rows with
          | error e => exact ⟨e, rfl⟩
          | ok poss =>
              rcases coerceColumn_error ⟨r, hr, hfail⟩ with ⟨e, he⟩
              rw [he]
              exact ⟨e, rfl⟩

/-- The reviews-query scenario row of the spec. -/
def c6Row : Row :=
  [("price_range", Cell.str "10-20"), ("avg_positive_reviews", Cell.str "12.5"),
   ("avg_negative_reviews", Cell.str "3.0"), ("avg_recommendations", Cell.str "7")]

/-- A reviews row whose positive-review metric is not parseable as a
float. -/
def c6BadRow : Row :=
  [("price_range", Cell.str "10-20"), ("avg_positive_reviews", Cell.str "abc"),
   ("avg_negative_reviews", Cell.str "3.0"), ("avg_recommendations", Cell.str "7")]

/-- C6 counterexample: the chart series are keyed by the dataframe's
positional row index (`st.bar_chart` receives no `x`, so the default
RangeIndex keys the series): at the spec's reviews scenario row, the sole
entry of each series is keyed by the index 0, which is not the row's
price-range category "10-20" by which the claim requires the series to be
keyed. -/
theorem reviews_charts_keyed_counterexample :
    reviewsCharts [c6Row] =
      Except.ok ([(Cell.int 0, (some (Dec.mk 125 1), some (Dec.mk 30 1)))],
                 [(Cell.int 0, some (Dec.mk 7 0))]) ∧
    Row.get c6Row priceRangeCol = Cell.str "10-20" ∧
    Cell.int 0 ≠ Cell.str "10-20" := by
  decide

/-- Witness for C6's amended claim at the spec's reviews scenario row
(values float to 12.5, 3.0 and 7.0, keyed by row index 0) and at a row
with an unparseable metric (ValueError, via the error part). -/
theorem reviews_charts_float_coercion_witness :
    (reviewsCharts [c6Row] = Except.ok
       ([(Cell.int 0, (some (Dec.mk 125 1), some (Dec.mk 30 1)))],
        [(Cell.int 0, some (Dec.mk 7 0))])) ∧
    (∃ e, reviewsCharts [c6BadRow] = Except.error e) ∧
    (Dec.mk 125 1).toRat = 12.5 ∧ (Dec.mk 30 1).toRat = 3 ∧ (Dec.mk 7 0).toRat = 7 :=
  ⟨by
     rw [((reviews_charts_float_coercion [c6Row]).1 (by decide)).1]
     decide,
   (reviews_charts_float_coercion [c6BadRow]).2
     ⟨c6BadRow, by decide, "avg_positive_reviews", by decide, by decide⟩,
   by norm_num [Dec.toRat], by norm_num [Dec.toRat], by norm_num [Dec.toRat]⟩

/-! ## Procedure Registry and Invoker (src/main.py lines 7-12, 45-57) -/

/-- The `PROCEDURES` lookup table: query label → stored-procedure name. -/
def PROCEDURES : List (String × String) :=
  [("Get games released within a certain date range",
      "get_games_by_price_and_date"),
   ("See how reviews and recommendations are affected by price range",
      "get_reco_by_price_range"),
   ("See the relationship between genre and language to reviews and recommendations",
      "analyze_genre_language_to_reviews_recommendations"),
   ("See the relationship between game price and developers",
      "sp_analyze_game_price_developer_relationship")]

/-- Association-list lookup, as the dict subscript
`PROCEDURES[procedure_name]` (KeyError — the spec's
`UnknownProcedureError` — when the label is absent). -/
def lookupList : List (String × String) → String → Option String
  | [], _ => none
  | (k, v) :: rest, l => if l = k then some v else lookupList rest l

/-- The registry lookup of line 46. -/
def lookupProc (label : String) : Option String := lookupList PROCEDURES label

theorem lookupList_eq_none {ps : List (String × String)} {l : String}
    (h : l ∉ ps.map Prod.fst) : lookupList ps l = none := by
  induction ps with
  | nil => rfl
  | cons p rest ih =>
      obtain ⟨k, v⟩ := p
      have hk : l ≠ k := by
        intro h'
        exact h (by simp [h'])
      simp only [lookupList, if_neg hk]
      exact ih (fun hmem => h (by simp [hmem]))

/-- The observable backend behaviour of one invocation: whether connecting
raises, whether the procedure call raises, whether the fetch raises,
whether the formatter raises, and otherwise the shaped rows. -/
structure Backend where
  connectErr : Option String
  callErr : Option String
  fetchErr : Option String
  formatErr : Option String
  rows : List Row

/-- The outcome of `call_procedure`: its result, how many connections were
opened and how many were closed before control returned, and whether the
backend procedure call was attempted. -/
structure CallOutcome where
  result : Except String (List Row)
  opened : Nat
  closed : Nat
  backendCalled : Bool

/-- `call_procedure(procedure_name, params, formatter)` as an effect
trace: the registry lookup happens first (line 46, before any
connection); then a fresh connection is opened, and the `try`/`finally`
closes it on every path out of the procedure call, the fetch and the
formatter (lines 47-57). -/
def call_procedure (label : String) (b : Backend) : CallOutcome :=
  match lookupProc label with
  | none => ⟨Except.error "UnknownProcedureError", 0, 0, false⟩
  | some _ =>
      match b.connectErr with
      | some e => ⟨Except.error e, 0, 0, false⟩
      | none =>
          match b.callErr with
          | some e => ⟨Except.error e, 1, 1, true⟩
          | none =>
              match b.fetchErr with
              | some e => ⟨Except.error e, 1, 1, true⟩
              | none =>
                  match b.formatErr with
                  | some e => ⟨Except.error e, 1, 1, true⟩
                  | none => ⟨Except.ok b.rows, 1, 1, true⟩

/-- C8: for every label outside the four registered ones, the
procedure-call path fails with `UnknownProcedureError` before any backend
interaction — no connection is opened and no procedure is called — for
every backend behaviour; and each of the four registered labels looks up
to its procedure identifier (a pure lookup with no side effects). -/
theorem unknown_label_fails_before_backend (label : String) (b : Backend)
    (h : label ∉ PROCEDURES.map Prod.fst) :
    (call_procedure label b).result = Except.error "UnknownProcedureError" ∧
    (call_procedure label b).opened = 0 ∧
    (call_procedure label b).backendCalled = false ∧
    lookupProc "Get games released within a certain date range" =
      some "get_games_by_price_and_date" ∧
    lookupProc "See how reviews and recommendations are affected by price range" =
      some "get_reco_by_price_range" ∧
    lookupProc
        "See the relationship between genre and language to reviews and recommendations" =
      some "analyze_genre_language_to_reviews_recommendations" ∧
    lookupProc "See the relationship between game price and developers" =
      some "sp_analyze_game_price_developer_relationship" := by
  have hl : lookupProc label = none := lookupList_eq_none h
  refine ⟨?_, ?_, ?_, rfl, rfl, rfl, rfl⟩ <;> simp [call_procedure, hl]

/-- A backend behaviour whose procedure call raises. -/
def c8Backend : Backend := Backend.mk none none none none []

/-- Witness for C8 at a label absent from the registry. -/
theorem unknown_label_fails_before_backend_witness :
    ("bogus label" ∉ PROCEDURES.map Prod.fst) ∧
    ((call_procedure "bogus label" c8Backend).result =
        Except.error "UnknownProcedureError" ∧
      (call_procedure "bogus label" c8Backend).opened = 0 ∧
      (call_procedure "bogus label" c8Backend).backendCalled = false ∧
      lookupProc "Get games released within a certain date range" =
        some "get_games_by_price_and_date" ∧
      lookupProc "See how reviews and recommendations are affected by price range" =
        some "get_reco_by_price_range" ∧
      lookupProc
          "See the relationship between genre and language to reviews and recommendations" =
        some "analyze_genre_language_to_reviews_recommendations" ∧
      lookupProc "See the relationship between game price and developers" =
        some "sp_analyze_game_price_developer_relationship") :=
  ⟨by decide,
   unknown_label_fails_before_backend "bogus label" c8Backend (by decide)⟩

/-- C9: for every invocation and backend behaviour, every connection
opened is closed before control returns, on every exit path (procedure
call, fetch and shaping errors included); at most one connection is
opened per call; and when the label is registered and connecting succeeds,
exactly one connection is opened and closed. -/
theorem connection_closed_on_every_path (label : String) (b : Backend) :
    ((call_procedure label b).closed = (call_procedure label b).opened ∧
      (call_procedure label b).opened ≤ 1) ∧
    (lookupProc label ≠ none → b.connectErr = none →
      (call_procedure label b).opened = 1 ∧ (call_procedure label b).closed = 1) := by
  unfold call_procedure
  cases hl : lookupProc label with
  | none => simp
  | some p =>
      cases hc : b.connectErr with
      | some e => simp
      | none =>
          cases b.callErr <;> cases b.fetchErr <;> cases b.formatErr <;> simp

/-- A backend behaviour whose procedure call raises mid-invocation. -/
def c9Backend : Backend :=
  Backend.mk none (some "ProcedureExecutionError") none none []

/-- Witness for C9 at a registered label and a backend whose procedure
call raises: the connection is still opened and closed exactly once. -/
theorem connection_closed_on_every_path_witness :
    (lookupProc "Get games released within a certain date range" ≠ none) ∧
    c9Backend.connectErr = none ∧
    ((call_procedure "Get games released within a certain date range" c9Backend).opened = 1 ∧
      (call_procedure "Get games released within a certain date range" c9Backend).closed = 1) :=
  ⟨by decide, rfl,
   (connection_closed_on_every_path
     "Get games released within a certain date range" c9Backend).2 (by decide) rfl⟩

/-! ## Genre/language branch guard (src/main.py lines 206-224) -/

/-- A triggered backend invocation: procedure identifier and its ordered
parameters. -/
structure Invocation where
  procId : String
  params : List String

/-- The genre/language branch: `if not selected_genres or not
selected_languages:` warns and returns before the run button is even
consulted; otherwise a click invokes the procedure with the two
comma-joined selections and the pivot axis. -/
def genreLanguageAction (selectedGenres selectedLanguages : List String)
    (pivotAxis : String) (runClicked : Bool) : Option Invocation :=
  if selectedGenres.isEmpty || selectedLanguages.isEmpty then none
  else if runClicked then
    some (Invocation.mk "analyze_genre_language_to_reviews_recommendations"
      [String.intercalate "," selectedGenres,
       String.intercalate "," selectedLanguages, pivotAxis])
  else none

/-- C10: if the selected genre list or the selected language list is
empty, the genre/language branch returns before the run action can
trigger, so no backend invocation occurs (and hence no result table or
chart is produced), for every pivot axis and run-click state. -/
theorem empty_selection_no_invocation (selectedGenres selectedLanguages : List String)
    (pivotAxis : String) (runClicked : Bool)
    (h : selectedGenres = [] ∨ selectedLanguages = []) :
    genreLanguageAction selectedGenres selectedLanguages pivotAxis runClicked = none := by
  unfold genreLanguageAction
  rcases h with rfl | rfl
  · simp
  · simp

/-- Witness for C10: empty genre selection, one language selected, run
clicked. -/
theorem empty_selection_no_invocation_witness :
    (([] : List String) = [] ∨ ["English"] = ([] : List String)) ∧
    genreLanguageAction [] ["English"] "genre" true = none :=
  ⟨Or.inl rfl,
   empty_selection_no_invocation [] ["English"] "genre" true (Or.inl rfl)⟩

end MCO1
